import Mathlib

/-!
Verification of the tagalog log-shipping core: the filter pipeline
(`tagalog/filters.py`), the sink description parsing
(`tagalog/shipper/__init__.py`), the sinks' `ship` boundary behaviour
(`tagalog/shipper/stdout.py`, `statsd.py`, `redis.py`), and the
round-robin Redis connection pool with its resilient client
(`tagalog/shipper/redis.py`).

Python values flowing through the pipeline are modelled by `JValue`;
events (Python dicts with insertion order) are association lists.
Stateful pool code is modelled by explicit state passing: each pool
operation takes the current OS pid and the pool state, and returns
its result (`Except` for code that can raise) together with the
successor state.
-/

/-- Model of a Python value as produced by `json.loads` and carried in
events: strings, integers, booleans, null, lists, tuples and dicts.
Tuples are distinguished from lists because only lists support
`.extend` (relevant to `add_tags`). -/
inductive JValue where
  | str : String → JValue
  | num : Int → JValue
  | bool : Bool → JValue
  | null : JValue
  | arr : List JValue → JValue
  | tup : List JValue → JValue
  | obj : List (String × JValue) → JValue

/-- An event is a Python dict with insertion order: an association list
from string keys to values (`@message`, `@timestamp`, `@fields`, ...). -/
abbrev Event : Type := List (String × JValue)

/-- Lookup of `item[k]` on an event: first binding for the key. -/
def lookupE (item : Event) (k : String) : Option JValue :=
  match item with
  | [] => none
  | (k2, v) :: rest => if k2 = k then some v else lookupE rest k

/-- Assignment `item[k] = v` on an event: replaces the existing binding
in place (Python dicts keep the original insertion position) or appends
a new one. -/
def setE (item : Event) (k : String) (v : JValue) : Event :=
  match item with
  | [] => [(k, v)]
  | (k2, v2) :: rest => if k2 = k then (k, v) :: rest else (k2, v2) :: setE rest k v

/-- Whether a value supports `.extend` (only Python lists do; strings,
tuples and dicts raise `AttributeError`). -/
def supportsExtend : JValue → Bool
  | JValue.arr _ => true
  | _ => false

/-- One step of `filters.add_tags`: `item['@tags'].extend(taglist)`,
and on `AttributeError` or `KeyError` replace `item['@tags']` with a
fresh list and extend that. -/
def add_tags_item (taglist : List String) (item : Event) : Event :=
  match lookupE item "@tags" with
  | some (JValue.arr l) => setE item "@tags" (JValue.arr (l ++ taglist.map JValue.str))
  | some _ => setE item "@tags" (JValue.arr (taglist.map JValue.str))
  | none => setE item "@tags" (JValue.arr (taglist.map JValue.str))

/-- `filters.add_tags`: add the given tags to every item of the
iterable. -/
def add_tags (taglist : List String) (iterable : List Event) : List Event :=
  iterable.map (add_tags_item taglist)

/-- `filters.pipeline`: `head` is `functions[0]`, `tail` is
`functions[1:]`; when the tail is nonempty the result feeds the output
of `head` through the pipeline of the tail, otherwise it is `head`
itself. -/
def pipeline (head : List α → List α) (tail : List (List α → List α)) :
    List α → List α :=
  match tail with
  | [] => head
  | f :: rest => fun iterable => pipeline f rest (head iterable)

/-- Python `str.split(sep)` without a maxsplit, at character level:
splits on every occurrence of the separator. -/
def split_all_on (c : Char) : List Char → List (List Char)
  | [] => [[]]
  | x :: rest =>
    if x = c then [] :: split_all_on c rest
    else
      match split_all_on c rest with
      | [] => [[x]]
      | g :: gs => (x :: g) :: gs

/-- Python `str.split(sep, 1)` at character level: split at the first
occurrence of the separator only, `none` when the separator is absent. -/
def split_first_on (c : Char) : List Char → Option (List Char × List Char)
  | [] => none
  | x :: rest =>
    if x = c then some ([], rest)
    else (split_first_on c rest).map (fun pr => (x :: pr.1, pr.2))

/-- Argument parsing of `filters.get`: each argument is split with
`arg.split('=', 1)`; one part means positional, two parts mean a
keyword argument whose value may itself contain `=`. The clauses are
processed left to right. -/
def filter_grammar_clauses : List String → List String × List (String × String)
  | [] => ([], [])
  | cl :: rest =>
    let r := filter_grammar_clauses rest
    match split_first_on '=' cl.toList with
    | none => (cl :: r.1, r.2)
    | some (k, v) => (r.1, (String.mk k, String.mk v) :: r.2)

/-- Clause loop of `shipper.parse_shipper`: for each clause after the
name, if `'=' in clause` then `key, val = clause.split("=")` — a
two-way unpacking of an unbounded split, which raises `ValueError`
(modelled as `none`) when the clause contains more than one `=` —
otherwise the clause is positional. -/
def parse_shipper_clauses : List String → Option (List String × List (String × String))
  | [] => some ([], [])
  | clause :: rest =>
    match parse_shipper_clauses rest with
    | none => none
    | some r =>
      let cs := clause.toList
      if '=' ∈ cs then
        match split_all_on '=' cs with
        | [k, v] => some (r.1, (String.mk k, String.mk v) :: r.2)
        | _ => none
      else some (clause :: r.1, r.2)

/-- `shipper.parse_shipper`: the description is split on commas (the
`csv.reader` call, for descriptions without quoting), the first clause
is the shipper name and the rest are parsed by the clause loop. -/
def parse_shipper (description : String) :
    Option (String × List String × List (String × String)) :=
  match split_all_on ',' description.toList with
  | [] => none
  | name :: rest =>
    (parse_shipper_clauses (rest.map String.mk)).map
      (fun r => (String.mk name, r.1, r.2))

/-- Whitespace skipping used by the JSON reader. -/
def skipWs : List Char → List Char
  | [] => []
  | c :: rest =>
    if c = ' ' ∨ c = '\t' ∨ c = '\n' ∨ c = '\r' then skipWs rest else c :: rest

/-- Read the remainder of a JSON string after the opening quote, up to
the closing quote (escape sequences are not needed by any event in this
development). -/
def parseStringRest : List Char → Option (List Char × List Char)
  | [] => none
  | c :: cs =>
    if c = Char.ofNat 34 then some ([], cs)
    else
      match parseStringRest cs with
      | some (s, rest) => some (c :: s, rest)
      | none => none

/-- Digit run to a natural number. -/
def digitsToNat (ds : List Char) : Nat :=
  ds.foldl (fun n c => n * 10 + (c.toNat - 48)) 0

/-- Read a nonempty run of digits. -/
def parseDigits (cs : List Char) : Option (Nat × List Char) :=
  let ds := cs.takeWhile Char.isDigit
  if ds.isEmpty then none else some (digitsToNat ds, cs.dropWhile Char.isDigit)

mutual

/-- Fuel-indexed JSON value reader, modelling the grammar accepted by
`json.loads` on objects, arrays, strings, integers and literals. -/
def parseJ : Nat → List Char → Option (JValue × List Char)
  | 0, _ => none
  | Nat.succ fuel, cs0 =>
    match skipWs cs0 with
    | [] => none
    | c :: cs =>
      if c = Char.ofNat 123 then
        match skipWs cs with
        | [] => none
        | d :: cs2 =>
          if d = Char.ofNat 125 then some (JValue.obj [], cs2)
          else parseMembers fuel (d :: cs2)
      else if c = '[' then
        match skipWs cs with
        | [] => none
        | d :: cs2 =>
          if d = ']' then some (JValue.arr [], cs2)
          else parseItems fuel (d :: cs2)
      else if c = Char.ofNat 34 then
        match parseStringRest cs with
        | some (s, cs2) => some (JValue.str (String.mk s), cs2)
        | none => none
      else if c = 't' then
        match cs with
        | 'r' :: 'u' :: 'e' :: cs2 => some (JValue.bool true, cs2)
        | _ => none
      else if c = 'f' then
        match cs with
        | 'a' :: 'l' :: 's' :: 'e' :: cs2 => some (JValue.bool false, cs2)
        | _ => none
      else if c = 'n' then
        match cs with
        | 'u' :: 'l' :: 'l' :: cs2 => some (JValue.null, cs2)
        | _ => none
      else if c = '-' then
        match parseDigits cs with
        | some (n, cs2) => some (JValue.num (-(n : Int)), cs2)
        | none => none
      else if c.isDigit then
        match parseDigits (c :: cs) with
        | some (n, cs2) => some (JValue.num (n : Int), cs2)
        | none => none
      else none

/-- Members of a JSON object after the opening brace, first key pending. -/
def parseMembers : Nat → List Char → Option (JValue × List Char)
  | 0, _ => none
  | Nat.succ fuel, cs =>
    match skipWs cs with
    | [] => none
    | q :: cs1 =>
      if q = Char.ofNat 34 then
        match parseStringRest cs1 with
        | some (k, cs2) =>
          (match skipWs cs2 with
          | ':' :: cs3 =>
            (match parseJ fuel cs3 with
            | some (v, cs4) =>
              (match skipWs cs4 with
              | ',' :: cs5 =>
                (match parseMembers fuel cs5 with
                | some (JValue.obj kvs, cs6) =>
                  some (JValue.obj ((String.mk k, v) :: kvs), cs6)
                | _ => none)
              | d :: cs5 =>
                if d = Char.ofNat 125 then
                  some (JValue.obj [(String.mk k, v)], cs5)
                else none
              | [] => none)
            | none => none)
          | _ => none)
        | none => none
      else none

/-- Items of a JSON array after the opening bracket, first item pending. -/
def parseItems : Nat → List Char → Option (JValue × List Char)
  | 0, _ => none
  | Nat.succ fuel, cs =>
    match parseJ fuel cs with
    | some (v, cs1) =>
      (match skipWs cs1 with
      | ',' :: cs2 =>
        (match parseItems fuel cs2 with
        | some (JValue.arr vs, cs3) => some (JValue.arr (v :: vs), cs3)
        | _ => none)
      | ']' :: cs2 => some (JValue.arr [v], cs2)
      | _ => none)
    | none => none

end

/-- Model of `json.loads`: parse the whole line as one JSON value,
requiring that only whitespace remains. -/
def json_loads (s : String) : Option JValue :=
  match parseJ (s.length + 2) s.toList with
  | some (v, rest) => if (skipWs rest).isEmpty then some v else none
  | none => none

/-- Whether a parsed JSON value is an object (`isinstance(item, dict)`). -/
def is_json_object : JValue → Bool
  | JValue.obj _ => true
  | _ => false

/-- `filters.init_json`: parse each line with `json.loads`; an
unparseable line is dropped with two `log.warn` calls, a line that is
valid JSON but not an object is dropped with one, and object lines are
yielded in input order. Returns the yielded events together with the
number of warnings logged. -/
def init_json (iterable : List String) : List JValue × Nat :=
  match iterable with
  | [] => ([], 0)
  | line :: rest =>
    let r := init_json rest
    match json_loads line with
    | none => (r.1, 2 + r.2)
    | some item =>
      if is_json_object item then (item :: r.1, r.2) else (r.1, 1 + r.2)

mutual

/-- Serialization of a value as by `json.dumps` with its default
separators (tuples serialize as arrays). -/
def dumpJson : JValue → String
  | JValue.str s => "\"" ++ s ++ "\""
  | JValue.num n => toString n
  | JValue.bool b => if b then "true" else "false"
  | JValue.null => "null"
  | JValue.arr l => "[" ++ dumpItems l ++ "]"
  | JValue.tup l => "[" ++ dumpItems l ++ "]"
  | JValue.obj kvs => "\x7b" ++ dumpMembers kvs ++ "\x7d"

/-- Comma-separated serialization of array items. -/
def dumpItems : List JValue → String
  | [] => ""
  | [v] => dumpJson v
  | v :: rest => dumpJson v ++ ", " ++ dumpItems rest

/-- Comma-separated serialization of object members. -/
def dumpMembers : List (String × JValue) → String
  | [] => ""
  | [(k, v)] => "\"" ++ k ++ "\": " ++ dumpJson v
  | (k, v) :: rest => "\"" ++ k ++ "\": " ++ dumpJson v ++ ", " ++ dumpMembers rest

end

/-- `formatter.format_as_json`. -/
def format_as_json (msg : JValue) : String := dumpJson msg

/-- `formatter.elasticsearch_bulk_decorate`: prepend the one-line index
command and newline-terminate both lines. -/
def elasticsearch_bulk_decorate (bulk_index bulk_type msg : String) : String :=
  let command := dumpJson (JValue.obj
    [("index", JValue.obj [("_index", JValue.str bulk_index),
                           ("_type", JValue.str bulk_type)])])
  command ++ "\n" ++ msg ++ "\n"

/-- `formatter.format_as_elasticsearch_bulk_json`. -/
def format_as_elasticsearch_bulk_json (bulk_index bulk_type : String) (msg : JValue) :
    String :=
  elasticsearch_bulk_decorate bulk_index bulk_type (format_as_json msg)

/-- Outcomes of Python runtime failures relevant to the sinks. -/
inductive PyErr where
  | ioError
  | socketError
  | keyError
  | typeError
deriving Repr, DecidableEq

/-- `StdoutShipper.ship`: compute the payload and `print` it. The body
contains no `try`/`except`, so a failure of the write (modelled by the
`printIt` argument) propagates out of `ship`. -/
def stdoutShip (bulk : Bool) (bulk_index bulk_type : String)
    (printIt : String → Except PyErr Unit) (msg : JValue) : Except PyErr Unit :=
  let payload :=
    if bulk then format_as_elasticsearch_bulk_json bulk_index bulk_type msg
    else format_as_json msg
  printIt payload

/-- `NullShipper.ship`: `pass`. -/
def nullShip (_msg : JValue) : Except PyErr Unit := Except.ok ()

/-- `RedisShipper.ship`: compute the payload, then `lpush` inside a
`try` whose `except Exception` logs a warning and drops the event.
The payload computation itself sits outside the `try`. -/
def redisShip (bulk : Bool) (bulk_index bulk_type : String)
    (lpush : String → Except PyErr Unit) (msg : JValue) : Except PyErr Unit :=
  let payload :=
    if bulk then format_as_elasticsearch_bulk_json bulk_index bulk_type msg
    else format_as_json msg
  match lpush payload with
  | Except.error _ => Except.ok ()
  | Except.ok _ => Except.ok ()

/-- A compiled piece of the statsd metric template: literal text or a
`%{field.path}` placeholder. -/
inductive TemplatePart where
  | lit : String → TemplatePart
  | field : String → TemplatePart

/-- Python `str(value)` as used when a placeholder is substituted. -/
def pyStr : JValue → String
  | JValue.str s => s
  | JValue.num n => toString n
  | JValue.bool b => if b then "True" else "False"
  | JValue.null => "None"
  | v => dumpJson v

/-- `reduce(operator.getitem, pieces, msg)`: descend through nested
dicts; a missing key raises `KeyError`, indexing a non-dict value with
a string raises `TypeError`. -/
def getitem_chain : JValue → List String → Except PyErr JValue
  | v, [] => Except.ok v
  | JValue.obj kvs, piece :: rest =>
    match lookupE kvs piece with
    | some v => getitem_chain v rest
    | none => Except.error PyErr.keyError
  | _, _ :: _ => Except.error PyErr.typeError

/-- `statsd.get_from_msg`: take the literal key when present, otherwise
descend along the dot-separated path. -/
def get_from_msg (field : String) (msg : Event) : Except PyErr JValue :=
  match lookupE msg field with
  | some v => Except.ok v
  | none => getitem_chain (JValue.obj msg) ((split_all_on '.' field.toList).map String.mk)

/-- Realise the metric template against a message, substituting each
placeholder via `get_from_msg` (the body of `__realised_metric`). -/
def realisedMetric (template : List TemplatePart) (msg : Event) :
    Except PyErr String :=
  template.foldlM
    (fun acc part =>
      match part with
      | TemplatePart.lit s => Except.ok (acc ++ s)
      | TemplatePart.field f => (get_from_msg f msg).map (fun v => acc ++ pyStr v))
    ""

/-- `StatsdShipper.ship`: build `realised_metric:statsd_msg` and send
it, catching only `socket.error` and `KeyError`; every other failure
(for instance the `TypeError` raised by a dotted lookup that crosses a
non-dict value, or by the timer's `'%f' % value` on a non-number)
propagates out of `ship`. The counter variant's `_statsd_msg` is the
constant `1|c`; the timer variant's is modelled by the `statsd_msg`
argument. -/
def statsdShip (template : List TemplatePart)
    (statsd_msg : Event → Except PyErr String)
    (send : String → Except PyErr Unit) (msg : Event) : Except PyErr Unit :=
  let attempt : Except PyErr Unit := do
    let r ← realisedMetric template msg
    let m ← statsd_msg msg
    send (r ++ ":" ++ m)
  match attempt with
  | Except.error PyErr.socketError => Except.ok ()
  | Except.error PyErr.keyError => Except.ok ()
  | other => other

/-- `_statsd_msg` of the counter variant: always `1|c`. -/
def statsd_counter_msg (_msg : Event) : Except PyErr String := Except.ok "1|c"

/-- `_statsd_msg` of the timer variant: `'%f|ms' % get_from_msg(...)`,
where the format raises `TypeError` unless the value is a number. -/
def statsd_timer_msg (timed_field : String) (msg : Event) : Except PyErr String := do
  let v ← get_from_msg timed_field msg
  match v with
  | JValue.num n => Except.ok (toString n ++ ".000000|ms")
  | _ => Except.error PyErr.typeError

/-- A Redis connection as owned by the pool: its Python object identity
(`id`), the index of the endpoint pattern it is bound to
(`_pattern_idx`), and the pid of the process that created it (`pid`,
set by the redis `Connection` constructor). -/
structure Conn where
  id : Nat
  pattern_idx : Nat
  pid : Nat
deriving Repr, DecidableEq

/-- State of `RoundRobinConnectionPool`. The per-endpoint lists of
Python (`_created_connections`, `_available_connections`,
`_in_use_connections`) are modelled as functions from the endpoint
index; `_in_use_connections[i]` is a Python `set`, modelled as a
duplicate-free list. `next_id` generates fresh object identities for
new connections. -/
structure Pool where
  num_patterns : Nat
  pid : Nat
  max_connections_per_pattern : Nat
  pattern_idx : Nat
  created_connections : Nat → Nat
  available_connections : Nat → List Conn
  in_use_connections : Nat → List Conn
  next_id : Nat

/-- Pointwise update of an index-function. -/
def updf (f : Nat → α) (i : Nat) (v : α) : Nat → α :=
  fun j => if j = i then v else f j

/-- Python `set.add`: no effect when the element is already present. -/
def setAdd (l : List Conn) (c : Conn) : List Conn :=
  if c ∈ l then l else l ++ [c]

/-- The pool built by `__init__` for `n` endpoint patterns: all
bookkeeping empty, cursor at zero, pid recorded at construction. -/
def mkPool (n cap pid : Nat) : Pool :=
  { num_patterns := n
    pid := pid
    max_connections_per_pattern := cap
    pattern_idx := 0
    created_connections := fun _ => 0
    available_connections := fun _ => []
    in_use_connections := fun _ => []
    next_id := 0 }

/-- `all_connections`: every available then every in-use connection,
per endpoint in order. -/
def all_connections (p : Pool) : List Conn :=
  (List.range p.num_patterns).foldr
    (fun i acc => p.available_connections i ++ (p.in_use_connections i ++ acc)) []

/-- `__init__` invoked again on a live pool by `_checkpid`: the same
patterns are re-added to empty bookkeeping and the pid of the calling
process is recorded. Object identities of future connections stay
distinct from all existing ones, so `next_id` carries over. -/
def reinit (p : Pool) (curPid : Nat) : Pool :=
  { num_patterns := p.num_patterns
    pid := curPid
    max_connections_per_pattern := p.max_connections_per_pattern
    pattern_idx := 0
    created_connections := fun _ => 0
    available_connections := fun _ => []
    in_use_connections := fun _ => []
    next_id := p.next_id }

/-- `_checkpid`: when the recorded pid differs from the calling
process's pid, call `disconnect()` on the whole pool — closing every
connection, including those whose sockets are shared with the parent
process — and then `__init__`. The second component lists the
connections on which `disconnect()` was invoked. -/
def checkpid (curPid : Nat) (p : Pool) : Pool × List Conn :=
  if p.pid ≠ curPid then (reinit p curPid, all_connections p) else (p, [])

/-- `_next_pattern`: advance the round-robin cursor with wrap-around. -/
def next_pattern (p : Pool) : Pool :=
  { p with pattern_idx := (p.pattern_idx + 1) % p.num_patterns }

/-- Exceptions raised by the pool and the transport. -/
inductive PErr where
  | exhausted
  | transport
  | keyErr
  | valueErr
deriving Repr, DecidableEq

/-- `make_connection`: raise `ConnectionError("Too many connections")`
when the endpoint at the cursor has reached its creation cap, else
increment the created count and build a fresh connection bound to the
cursor's pattern. -/
def make_connection (p : Pool) : Except PErr Conn × Pool :=
  if p.max_connections_per_pattern ≤ p.created_connections p.pattern_idx then
    (Except.error PErr.exhausted, p)
  else
    (Except.ok { id := p.next_id, pattern_idx := p.pattern_idx, pid := p.pid },
     { p with
        created_connections :=
          updf p.created_connections p.pattern_idx
            (p.created_connections p.pattern_idx + 1)
        next_id := p.next_id + 1 })

/-- `get_connection`: after `_checkpid`, pop the last available
connection of the cursor's endpoint, falling back to
`make_connection` (whose exception propagates before the cursor
advance), add the connection to the in-use set and advance the
cursor. -/
def get_connection (curPid : Nat) (p0 : Pool) : Except PErr Conn × Pool :=
  let p := (checkpid curPid p0).1
  match (p.available_connections p.pattern_idx).getLast? with
  | some c =>
    (Except.ok c,
     next_pattern
       { p with
          available_connections :=
            updf p.available_connections p.pattern_idx
              ((p.available_connections p.pattern_idx).dropLast)
          in_use_connections :=
            updf p.in_use_connections p.pattern_idx
              (setAdd (p.in_use_connections p.pattern_idx) c) })
  | none =>
    match make_connection p with
    | (Except.error e, p1) => (Except.error e, p1)
    | (Except.ok c, p1) =>
      (Except.ok c,
       next_pattern
         { p1 with
            in_use_connections :=
              updf p1.in_use_connections p1.pattern_idx
                (setAdd (p1.in_use_connections p1.pattern_idx) c) })

/-- `release`: after `_checkpid`, and only when the connection was
created by this process, move it from the in-use set back to the
available list of its endpoint (`set.remove` raises `KeyError` when
the connection is not in use). -/
def release (curPid : Nat) (c : Conn) (p0 : Pool) : Except PErr Unit × Pool :=
  let p := (checkpid curPid p0).1
  if c.pid = p.pid then
    if c ∈ p.in_use_connections c.pattern_idx then
      (Except.ok (),
       { p with
          in_use_connections :=
            updf p.in_use_connections c.pattern_idx
              ((p.in_use_connections c.pattern_idx).erase c)
          available_connections :=
            updf p.available_connections c.pattern_idx
              (p.available_connections c.pattern_idx ++ [c]) })
    else (Except.error PErr.keyErr, p)
  else (Except.ok (), p)

/-- `purge`: after `_checkpid`, and only when the connection was
created by this process, remove it from whichever set holds it
(`list.remove` raises `ValueError` when it is in neither) and
disconnect it. -/
def purge (curPid : Nat) (c : Conn) (p0 : Pool) : Except PErr Unit × Pool :=
  let p := (checkpid curPid p0).1
  if c.pid = p.pid then
    if c ∈ p.in_use_connections c.pattern_idx then
      (Except.ok (),
       { p with
          in_use_connections :=
            updf p.in_use_connections c.pattern_idx
              ((p.in_use_connections c.pattern_idx).erase c) })
    else if c ∈ p.available_connections c.pattern_idx then
      (Except.ok (),
       { p with
          available_connections :=
            updf p.available_connections c.pattern_idx
              ((p.available_connections c.pattern_idx).erase c) })
    else (Except.error PErr.valueErr, p)
  else (Except.ok (), p)

/-- `RedisShipper.__init__` sets the resilient client's
`execution_attempts` to the number of endpoint patterns in the pool. -/
def execution_attempts_for (p : Pool) : Nat := p.num_patterns

/-- Result of one `execute_command` run: the parsed response (`some`
connection stands for the successful attempt's connection; `none` for
the empty attempt loop, which returns Python `None`), the final pool
state, and the connections leased across attempts, in order. -/
structure ExecResult where
  res : Except PErr (Option Conn)
  pool : Pool
  leased : List Conn

/-- `ResilientStrictRedis.execute_command` with the send/parse outcome
of each attempt given by `fails` (`true` = the attempt's
`send_command`/`parse_response` raises a transport error). The lease
happens before the `try`, so a lease failure propagates immediately;
inside the `try`, a failure is caught, the connection purged, and the
original exception re-raised when no attempts remain. -/
def exec_loop (curPid : Nat) (fails : List Bool) (p : Pool) : ExecResult :=
  match fails with
  | [] => { res := Except.ok none, pool := p, leased := [] }
  | f :: rest =>
    match get_connection curPid p with
    | (Except.error e, p1) => { res := Except.error e, pool := p1, leased := [] }
    | (Except.ok c, p1) =>
      let attempt : Except PErr Unit × Pool :=
        if f then (Except.error PErr.transport, p1)
        else release curPid c p1
      match attempt with
      | (Except.ok _, p2) => { res := Except.ok (some c), pool := p2, leased := [c] }
      | (Except.error e, p2) =>
        match purge curPid c p2 with
        | (Except.error e2, p3) => { res := Except.error e2, pool := p3, leased := [c] }
        | (Except.ok _, p3) =>
          if rest.isEmpty then { res := Except.error e, pool := p3, leased := [c] }
          else
            let o := exec_loop curPid rest p3
            { res := o.res, pool := o.pool, leased := c :: o.leased }

/-- Iterate `get_connection` a number of times, collecting the lease
results in order. -/
def leaseSeq (curPid : Nat) : Nat → Pool → List (Except PErr Conn) × Pool
  | 0, p => ([], p)
  | Nat.succ k, p =>
    let r := get_connection curPid p
    let rest := leaseSeq curPid k r.2
    (r.1 :: rest.1, rest.2)

/-- Whether an `Except` is a success. -/
def isOkE : Except ε α → Bool
  | Except.ok _ => true
  | Except.error _ => false

/-- Fresh three-endpoint pool with the default connection cap, as built
by a shipper configured with three Redis URLs, in process 7. -/
def demo3 : Pool := mkPool 3 (2 ^ 31) 7

/-- Two-endpoint pool with a per-endpoint cap of one in which both
endpoints have already created (and since purged) their connection:
every lease attempt now raises `ConnectionError`. -/
def demoExhausted : Pool :=
  { num_patterns := 2
    pid := 7
    max_connections_per_pattern := 1
    pattern_idx := 0
    created_connections := fun _ => 1
    available_connections := fun _ => []
    in_use_connections := fun _ => []
    next_id := 2 }

/-- One-endpoint pool created in process 1 holding one available
connection, later touched from a forked child (process 2). -/
def demoForked : Pool :=
  { num_patterns := 1
    pid := 1
    max_connections_per_pattern := 4
    pattern_idx := 0
    created_connections := fun j => if j = 0 then 1 else 0
    available_connections := fun j => if j = 0 then [{ id := 0, pattern_idx := 0, pid := 1 }] else []
    in_use_connections := fun _ => []
    next_id := 1 }

/-- Connection created by a lease that falls through to
`make_connection`. -/
def leasedConn (p : Pool) : Conn :=
  { id := p.next_id, pattern_idx := p.pattern_idx, pid := p.pid }

/-- Pool state after one failing attempt on a pool whose cursor
endpoint has no available connection: the lease creates a fresh
connection (created count up, cursor advanced) and the purge removes
it from the in-use set again. -/
def failStepPool (p : Pool) : Pool :=
  { num_patterns := p.num_patterns
    pid := p.pid
    max_connections_per_pattern := p.max_connections_per_pattern
    pattern_idx := (p.pattern_idx + 1) % p.num_patterns
    created_connections := updf p.created_connections p.pattern_idx
      (p.created_connections p.pattern_idx + 1)
    available_connections := p.available_connections
    in_use_connections :=
      updf
        (updf p.in_use_connections p.pattern_idx
          (setAdd (p.in_use_connections p.pattern_idx) (leasedConn p)))
        (leasedConn p).pattern_idx
        (((updf p.in_use_connections p.pattern_idx
            (setAdd (p.in_use_connections p.pattern_idx) (leasedConn p)))
          (leasedConn p).pattern_idx).erase (leasedConn p))
    next_id := p.next_id + 1 }

/-- Pool state after k consecutive failing attempts, each starting at a
cursor endpoint with no available connection. -/
def failStepN : Nat → Pool → Pool
  | 0, p => p
  | Nat.succ k, p => failStepN k (failStepPool p)

/-- Well-formedness invariant of a pool: the cursor is in range, every
connection sits in the set of its own endpoint, was created by the
pool's process with a fresh identity, no connection is both available
and in use, the sets are duplicate-free, and no endpoint's created
count exceeds the cap. -/
structure WF (p : Pool) : Prop where
  n_pos : 0 < p.num_patterns
  idx_lt : p.pattern_idx < p.num_patterns
  avail_at : ∀ i c, c ∈ p.available_connections i →
    c.pattern_idx = i ∧ c.pid = p.pid ∧ c.id < p.next_id
  inuse_at : ∀ i c, c ∈ p.in_use_connections i →
    c.pattern_idx = i ∧ c.pid = p.pid ∧ c.id < p.next_id
  not_both : ∀ c : Conn, ¬(c ∈ p.available_connections c.pattern_idx
    ∧ c ∈ p.in_use_connections c.pattern_idx)
  nodup_avail : ∀ i, (p.available_connections i).Nodup
  nodup_inuse : ∀ i, (p.in_use_connections i).Nodup
  cap_ok : ∀ i, i < p.num_patterns →
    p.created_connections i ≤ p.max_connections_per_pattern

/-- One-endpoint pool in process 7 holding a single in-use connection,
used to witness the lifecycle invariants. -/
def demoWF : Pool :=
  { num_patterns := 1
    pid := 7
    max_connections_per_pattern := 4
    pattern_idx := 0
    created_connections := fun j => if j = 0 then 1 else 0
    available_connections := fun _ => []
    in_use_connections := fun j =>
      if j = 0 then [{ id := 0, pattern_idx := 0, pid := 7 }] else []
    next_id := 1 }

example : parse_shipper "redis,redis://localhost:6379,key=mylogs"
    = some ("redis", ["redis://localhost:6379"], [("key", "mylogs")]) := by decide

example : parse_shipper "redis,key=a=b" = none := by decide

example : json_loads "[1,2]" = some (JValue.arr [JValue.num 1, JValue.num 2]) := by rfl

example : json_loads "not json" = none := by rfl

/-- C7: for any two filters a and b and any input sequence x, the
composed pipeline pipeline(a, b) applied to x yields exactly the
sequence obtained by applying b to the output of a applied to x,
element-wise and in the same order. -/
theorem c7_pipeline_composition {α : Type} (a b : List α → List α) (x : List α) :
    pipeline a [b] x = b (a x) := rfl

/-- C10: when the `@tags` key is absent or holds a list, the supplied
tags are appended preserving existing content; when it is present with
a value that does not support list extension, it is silently replaced
by a fresh list of just the supplied tags. -/
theorem c10_add_tags (item : Event) (tags : List String) (v : JValue)
    (l : List JValue) (rest : List Event) :
    (lookupE item "@tags" = none →
      add_tags tags (item :: rest)
        = setE item "@tags" (JValue.arr (tags.map JValue.str)) :: add_tags tags rest)
    ∧ (lookupE item "@tags" = some (JValue.arr l) →
      add_tags tags (item :: rest)
        = setE item "@tags" (JValue.arr (l ++ tags.map JValue.str)) :: add_tags tags rest)
    ∧ (lookupE item "@tags" = some v → supportsExtend v = false →
      add_tags tags (item :: rest)
        = setE item "@tags" (JValue.arr (tags.map JValue.str)) :: add_tags tags rest) := by
  refine ⟨?_, ?_, ?_⟩
  · intro h
    simp [add_tags, add_tags_item, h]
  · intro h
    simp [add_tags, add_tags_item, h]
  · intro h hv
    cases v <;> simp_all [add_tags, add_tags_item, supportsExtend]

/-- Witness for C10: an event whose `@tags` is the string "x" has it
replaced by the fresh list of supplied tags. -/
theorem c10_add_tags_witness :
    add_tags ["t"] ([("@tags", JValue.str "x")] :: [])
      = setE [("@tags", JValue.str "x")] "@tags" (JValue.arr (["t"].map JValue.str))
        :: add_tags ["t"] [] :=
  (c10_add_tags [("@tags", JValue.str "x")] ["t"] (JValue.str "x") [] []).2.2 rfl rfl

/-- C8: a line parsing as a JSON object yields exactly that one event;
an unparseable line yields zero events and logs warnings; a line that
parses to a non-object yields zero events and logs a warning; in all
cases the stream continues with the rest of the lines. -/
theorem c8_init_json (line : String) (rest : List String) (j : JValue) :
    (json_loads line = some j → is_json_object j = true →
      init_json (line :: rest) = (j :: (init_json rest).1, (init_json rest).2))
    ∧ (json_loads line = none →
      init_json (line :: rest) = ((init_json rest).1, 2 + (init_json rest).2))
    ∧ (json_loads line = some j → is_json_object j = false →
      init_json (line :: rest) = ((init_json rest).1, 1 + (init_json rest).2)) := by
  refine ⟨?_, ?_, ?_⟩
  · intro h hobj
    simp [init_json, h, hobj]
  · intro h
    simp [init_json, h]
  · intro h hobj
    simp [init_json, h, hobj]

/-- Witness for C8: the line `{"a":1}` yields the one event `{a: 1}`. -/
theorem c8_init_json_witness :
    init_json ["\x7b\"a\":1\x7d"]
      = (JValue.obj [("a", JValue.num 1)] :: (init_json []).1, (init_json []).2) :=
  (c8_init_json "\x7b\"a\":1\x7d" [] (JValue.obj [("a", JValue.num 1)])).1 rfl rfl

/-- C1 (code bug): `StdoutShipper.ship` has no handler, so a failing
write propagates out of `ship`; `StatsdShipper.ship` catches only
`socket.error` and `KeyError`, so the `TypeError` raised by a dotted
metric lookup crossing a non-dict value propagates; by contrast
`RedisShipper.ship` catches every transport failure and
`NullShipper.ship` cannot fail. -/
theorem c1_ship_boundary :
    stdoutShip false "logs" "message" (fun _ => Except.error PyErr.ioError) (JValue.obj [])
      = Except.error PyErr.ioError
    ∧ statsdShip [TemplatePart.field "a.b"] statsd_counter_msg (fun _ => Except.ok ())
        [("a", JValue.str "s")] = Except.error PyErr.typeError
    ∧ redisShip false "logs" "message" (fun _ => Except.error PyErr.socketError) (JValue.obj [])
      = Except.ok ()
    ∧ nullShip (JValue.obj []) = Except.ok () := by
  refine ⟨rfl, rfl, rfl, rfl⟩

/-- C2 counterexample: on `demoExhausted` the lease attempt fails with
`ConnectionError` and the round-robin cursor does not advance — it
stays at endpoint 0 instead of moving to endpoint 1 as the claim
requires for failed attempts. -/
theorem c2_counterexample :
    (get_connection 7 demoExhausted).1 = Except.error PErr.exhausted
    ∧ (get_connection 7 demoExhausted).2.pattern_idx = 0
    ∧ demoExhausted.pattern_idx = 0
    ∧ demoExhausted.num_patterns = 2
    ∧ ¬ (get_connection 7 demoExhausted).2.pattern_idx
        = (demoExhausted.pattern_idx + 1) % demoExhausted.num_patterns := by
  refine ⟨rfl, rfl, rfl, rfl, ?_⟩
  decide

/-- C2 amended: a successful lease advances the cursor to the next
endpoint with wrap-around, while a failed lease attempt leaves the
cursor unchanged; on a fresh pool with endpoints E1, E2, E3, four
consecutive leases return connections bound to E1, E2, E3, E1. -/
theorem c2_cursor_advance (p : Pool) (curPid : Nat) (hpid : p.pid = curPid) :
    ((get_connection curPid p).2.pattern_idx
      = if isOkE (get_connection curPid p).1 = true
        then (p.pattern_idx + 1) % p.num_patterns
        else p.pattern_idx)
    ∧ (leaseSeq 7 4 demo3).1.map (fun r => r.toOption.map Conn.pattern_idx)
        = [some 0, some 1, some 2, some 0] := by
  constructor
  · have hc : checkpid curPid p = (p, []) := by simp [checkpid, hpid]
    unfold get_connection
    rw [hc]
    cases hL : (p.available_connections p.pattern_idx).getLast? with
    | some c => simp [hL, next_pattern, isOkE]
    | none =>
      unfold make_connection
      by_cases hcap :
          p.max_connections_per_pattern ≤ p.created_connections p.pattern_idx
      · simp [hL, hcap, isOkE]
      · simp [hL, hcap, next_pattern, isOkE]
  · rfl

/-- Witness for C2 amended: the exhausted pool state satisfies the pid
hypothesis, and there the failing lease leaves the cursor at 0. -/
theorem c2_cursor_advance_witness :
    ((get_connection 7 demoExhausted).2.pattern_idx
      = if isOkE (get_connection 7 demoExhausted).1 = true
        then (demoExhausted.pattern_idx + 1) % demoExhausted.num_patterns
        else demoExhausted.pattern_idx)
    ∧ (leaseSeq 7 4 demo3).1.map (fun r => r.toOption.map Conn.pattern_idx)
        = [some 0, some 1, some 2, some 0] :=
  c2_cursor_advance demoExhausted 7 rfl

/-- C3 counterexample: when `_checkpid` runs in a forked child it calls
`disconnect()` on the inherited pool, closing the connection whose
socket is shared with the parent — the claim says no shared file
descriptor is closed. -/
theorem c3_counterexample :
    (checkpid 2 demoForked).2 = [{ id := 0, pattern_idx := 0, pid := 1 }]
    ∧ (checkpid 2 demoForked).2 ≠ [] := by
  refine ⟨rfl, ?_⟩
  decide

/-- C3 amended: on a pid change the pool disconnects (closes) every
existing connection and reinitializes to empty state — same endpoints,
new pid, no available or in-use connections, created counts zero — and
a subsequent lease returns a connection created in the new process,
never one from before the fork. -/
theorem c3_fork_reset (p : Pool) (curPid i : Nat) (c : Conn)
    (hfork : p.pid ≠ curPid)
    (hold : ∀ x ∈ all_connections p, x.pid = p.pid)
    (hget : (get_connection curPid p).1 = Except.ok c) :
    (checkpid curPid p).2 = all_connections p
    ∧ (checkpid curPid p).1.pid = curPid
    ∧ (checkpid curPid p).1.num_patterns = p.num_patterns
    ∧ (checkpid curPid p).1.available_connections i = []
    ∧ (checkpid curPid p).1.in_use_connections i = []
    ∧ (checkpid curPid p).1.created_connections i = 0
    ∧ c.pid = curPid
    ∧ c ∉ all_connections p := by
  have hck : checkpid curPid p = (reinit p curPid, all_connections p) := by
    simp [checkpid, hfork]
  have hcpid : c.pid = curPid := by
    unfold get_connection at hget
    rw [hck] at hget
    simp only [reinit] at hget
    unfold make_connection at hget
    by_cases hcap : p.max_connections_per_pattern ≤ 0
    · simp [hcap] at hget
    · simp [hcap] at hget
      rw [← hget]
  refine ⟨by rw [hck], by rw [hck]; rfl, by rw [hck]; rfl, by rw [hck]; rfl,
    by rw [hck]; rfl, by rw [hck]; rfl, hcpid, ?_⟩
  intro hmem
  exact hfork (by rw [← hold c hmem, hcpid])

/-- Witness for C3 amended: the forked child (pid 2) touching
`demoForked` closes the parent's connection, reinitializes the pool and
leases a fresh pid-2 connection. -/
theorem c3_fork_reset_witness :
    (checkpid 2 demoForked).2 = all_connections demoForked
    ∧ (checkpid 2 demoForked).1.pid = 2
    ∧ (checkpid 2 demoForked).1.num_patterns = demoForked.num_patterns
    ∧ (checkpid 2 demoForked).1.available_connections 0 = []
    ∧ (checkpid 2 demoForked).1.in_use_connections 0 = []
    ∧ (checkpid 2 demoForked).1.created_connections 0 = 0
    ∧ Conn.pid { id := 1, pattern_idx := 0, pid := 2 } = 2
    ∧ { id := 1, pattern_idx := 0, pid := 2 } ∉ all_connections demoForked :=
  c3_fork_reset demoForked 2 0 { id := 1, pattern_idx := 0, pid := 2 }
    (by decide) (by decide) rfl

/-- C5 counterexample: on `demoExhausted`, with an attempt budget of
two, a pool-exhaustion failure during the lease propagates immediately
out of `execute_command`: no connection is ever leased, no retry
happens on the second endpoint, and the raised error is the pool's
`ConnectionError`. -/
theorem c5_counterexample :
    (exec_loop 7 [true, true] demoExhausted).res = Except.error PErr.exhausted
    ∧ (exec_loop 7 [true, true] demoExhausted).leased = []
    ∧ (exec_loop 7 [true, true] demoExhausted).pool.pattern_idx = 0 := by
  refine ⟨rfl, rfl, rfl⟩

/-- C5 amended: whenever the lease raises (in particular on pool
exhaustion), `execute_command` propagates that error at once — before
any send, before any retry, consuming none of the remaining attempts —
leaving the pool exactly as the failed lease left it. -/
theorem c5_exhaustion_propagates (p : Pool) (curPid : Nat) (e : PErr)
    (f : Bool) (fails : List Bool)
    (h : (get_connection curPid p).1 = Except.error e) :
    (exec_loop curPid (f :: fails) p).res = Except.error e
    ∧ (exec_loop curPid (f :: fails) p).leased = []
    ∧ (exec_loop curPid (f :: fails) p).pool = (get_connection curPid p).2 := by
  have hsplit : get_connection curPid p
      = (Except.error e, (get_connection curPid p).2) := by
    rw [← h]
  unfold exec_loop
  rw [hsplit]
  exact ⟨rfl, rfl, rfl⟩

/-- Witness for C5 amended: instantiated on the exhausted two-endpoint
pool with both attempts budgeted to fail. -/
theorem c5_exhaustion_propagates_witness :
    (exec_loop 7 (true :: [true]) demoExhausted).res = Except.error PErr.exhausted
    ∧ (exec_loop 7 (true :: [true]) demoExhausted).leased = []
    ∧ (exec_loop 7 (true :: [true]) demoExhausted).pool
        = (get_connection 7 demoExhausted).2 :=
  c5_exhaustion_propagates demoExhausted 7 PErr.exhausted true [true] rfl

lemma split_all_on_not_mem (c : Char) (l : List Char) (h : c ∉ l) :
    split_all_on c l = [l] := by
  induction l with
  | nil => rfl
  | cons x rest ih =>
    have hx : ¬ x = c := fun hxc => h (hxc ▸ List.mem_cons_self x rest)
    have hr : c ∉ rest := fun hcr => h (List.mem_cons_of_mem x hcr)
    simp [split_all_on, hx, ih hr]

lemma split_all_on_single (c : Char) (k v : List Char) (hk : c ∉ k) (hv : c ∉ v) :
    split_all_on c (k ++ c :: v) = [k, v] := by
  induction k with
  | nil => simp [split_all_on, split_all_on_not_mem c v hv]
  | cons x rest ih =>
    have hx : ¬ x = c := fun hxc => hk (hxc ▸ List.mem_cons_self x rest)
    have hr : c ∉ rest := fun hcr => hk (List.mem_cons_of_mem x hcr)
    simp [split_all_on, hx, ih hr]

lemma split_first_on_not_mem (c : Char) (l : List Char) (h : c ∉ l) :
    split_first_on c l = none := by
  induction l with
  | nil => rfl
  | cons x rest ih =>
    have hx : ¬ x = c := fun hxc => h (hxc ▸ List.mem_cons_self x rest)
    have hr : c ∉ rest := fun hcr => h (List.mem_cons_of_mem x hcr)
    simp [split_first_on, hx, ih hr]

lemma split_first_on_single (c : Char) (k v : List Char) (hk : c ∉ k) :
    split_first_on c (k ++ c :: v) = some (k, v) := by
  induction k with
  | nil => simp [split_first_on]
  | cons x rest ih =>
    have hx : ¬ x = c := fun hxc => hk (hxc ▸ List.mem_cons_self x rest)
    have hr : c ∉ rest := fun hcr => hk (List.mem_cons_of_mem x hcr)
    simp [split_first_on, hx, ih hr]

lemma count_one_decomp (c : Char) (l : List Char) (h : l.count c = 1) :
    ∃ k v, l = k ++ c :: v ∧ c ∉ k ∧ c ∉ v := by
  induction l with
  | nil => simp at h
  | cons x rest ih =>
    by_cases hx : x = c
    · subst hx
      rw [List.count_cons_self] at h
      have hc : rest.count x = 0 := by omega
      exact ⟨[], rest, rfl, by simp, List.count_eq_zero.1 hc⟩
    · rw [List.count_cons_of_ne (fun hcx => hx hcx.symm)] at h
      obtain ⟨k, v, hdec, hk, hv⟩ := ih h
      refine ⟨x :: k, v, by rw [hdec]; rfl, ?_, hv⟩
      intro hmem
      rcases List.mem_cons.mp hmem with hcx | hck
      · exact hx hcx.symm
      · exact hk hck

/-- C9 counterexample: the clause `key=a=b` is a well-formed keyword
argument under the filter registry's grammar (split at the first `=`,
the value keeps the rest), yet `parse_shipper` fails on it because its
unbounded split produces three parts and the two-way unpacking raises
`ValueError`; a description avoiding `=` inside values still parses. -/
theorem c9_counterexample :
    parse_shipper "redis,key=a=b" = none
    ∧ filter_grammar_clauses ["key=a=b"] = ([], [("key", "a=b")])
    ∧ parse_shipper "redis,url,key=val"
        = some ("redis", ["url"], [("key", "val")]) := by decide

/-- C9 amended: for clause lists in which no clause contains more than
one `=`, the shipper parse succeeds and agrees exactly with the filter
registry's argument grammar (comma-separated clauses, `key=value`
keyword arguments, everything else positional); a clause with two or
more `=` instead makes the shipper parse fail. -/
theorem c9_grammar (clauses : List String)
    (h : ∀ cl ∈ clauses, (cl.toList.count '=') ≤ 1) :
    parse_shipper_clauses clauses = some (filter_grammar_clauses clauses) := by
  induction clauses with
  | nil => rfl
  | cons cl rest ih =>
    have hrest : ∀ x ∈ rest, (x.toList.count '=') ≤ 1 :=
      fun x hx => h x (List.mem_cons_of_mem _ hx)
    have hcl := h cl (List.mem_cons_self _ _)
    rw [parse_shipper_clauses, filter_grammar_clauses, ih hrest]
    rcases Nat.le_one_iff_eq_zero_or_eq_one.mp hcl with h0 | h1
    · have hnm : '=' ∉ cl.toList := List.count_eq_zero.1 h0
      have hnm2 : '=' ∉ cl.data := hnm
      simp [hnm2, split_first_on_not_mem '=' cl.data hnm2]
    · obtain ⟨k, v, hdec, hk, hv⟩ := count_one_decomp _ _ h1
      rw [hdec]
      simp [split_all_on_single '=' k v hk hv, split_first_on_single '=' k v hk]

/-- Witness for C9 amended: a description whose keyword clause has a
single `=` parses identically under both grammars. -/
theorem c9_grammar_witness :
    parse_shipper_clauses ["redis://localhost:6379", "key=mylogs"]
      = some (filter_grammar_clauses ["redis://localhost:6379", "key=mylogs"]) :=
  c9_grammar ["redis://localhost:6379", "key=mylogs"] (by decide)

lemma checkpid_same (curPid : Nat) (p : Pool) (hpid : p.pid = curPid) :
    checkpid curPid p = (p, []) := by
  simp [checkpid, hpid]

lemma get_conn_make (curPid : Nat) (p : Pool)
    (hpid : p.pid = curPid)
    (hav : p.available_connections p.pattern_idx = [])
    (hcap : p.created_connections p.pattern_idx < p.max_connections_per_pattern) :
    get_connection curPid p =
      (Except.ok { id := p.next_id, pattern_idx := p.pattern_idx, pid := p.pid },
       { num_patterns := p.num_patterns
         pid := p.pid
         max_connections_per_pattern := p.max_connections_per_pattern
         pattern_idx := (p.pattern_idx + 1) % p.num_patterns
         created_connections := updf p.created_connections p.pattern_idx
           (p.created_connections p.pattern_idx + 1)
         available_connections := p.available_connections
         in_use_connections := updf p.in_use_connections p.pattern_idx
           (setAdd (p.in_use_connections p.pattern_idx)
             { id := p.next_id, pattern_idx := p.pattern_idx, pid := p.pid })
         next_id := p.next_id + 1 }) := by
  unfold get_connection
  rw [checkpid_same curPid p hpid]
  dsimp only
  rw [hav]
  unfold make_connection
  rw [if_neg (Nat.not_le.mpr hcap)]
  rfl

lemma purge_only_inuse (curPid : Nat) (q : Pool) (c : Conn)
    (hpid : q.pid = curPid)
    (hcpid : c.pid = q.pid)
    (hmem : c ∈ q.in_use_connections c.pattern_idx) :
    purge curPid c q =
      (Except.ok (),
       { q with
          in_use_connections :=
            updf q.in_use_connections c.pattern_idx
              ((q.in_use_connections c.pattern_idx).erase c) }) := by
  unfold purge
  rw [checkpid_same curPid q hpid]
  rw [if_pos hcpid, if_pos hmem]

lemma exec_leased_le (curPid : Nat) :
    ∀ (fails : List Bool) (p : Pool),
      (exec_loop curPid fails p).leased.length ≤ fails.length := by
  intro fails
  induction fails with
  | nil => intro p; simp [exec_loop]
  | cons f rest ih =>
    intro p
    rw [exec_loop]
    dsimp only
    split
    · simp
    · split
      · simp
      · split
        · simp
        · split
          · simp
          · dsimp only
            simp only [List.length_cons]
            exact Nat.succ_le_succ (ih _)

lemma exec_step_fail (curPid : Nat) (p : Pool) (rest : List Bool)
    (hpid : p.pid = curPid)
    (hav : p.available_connections p.pattern_idx = [])
    (hiu : p.in_use_connections p.pattern_idx = [])
    (hcap : p.created_connections p.pattern_idx < p.max_connections_per_pattern) :
    exec_loop curPid (true :: rest) p =
      if rest.isEmpty then
        { res := Except.error PErr.transport, pool := failStepPool p,
          leased := [leasedConn p] }
      else
        { res := (exec_loop curPid rest (failStepPool p)).res,
          pool := (exec_loop curPid rest (failStepPool p)).pool,
          leased := leasedConn p :: (exec_loop curPid rest (failStepPool p)).leased } := by
  have hgc := get_conn_make curPid p hpid hav hcap
  rw [exec_loop, hgc]
  dsimp only
  rw [if_pos (rfl : true = true)]
  dsimp only
  rw [purge_only_inuse curPid]
  · rfl
  · exact hpid
  · rfl
  · simp [updf, setAdd, hiu, leasedConn]

lemma failStepPool_in_use (p : Pool)
    (hiu : p.in_use_connections p.pattern_idx = []) (j : Nat) :
    (failStepPool p).in_use_connections j = p.in_use_connections j := by
  by_cases hj : j = p.pattern_idx <;>
    simp [failStepPool, leasedConn, updf, setAdd, hiu, hj]

lemma exec_all_fail (curPid : Nat) :
    ∀ (m : Nat) (p : Pool),
      p.pid = curPid →
      0 < p.num_patterns →
      p.pattern_idx < p.num_patterns →
      (∀ j, p.available_connections j = []) →
      (∀ j, p.in_use_connections j = []) →
      (∀ j, j < p.num_patterns →
          p.created_connections j + (m + 1) ≤ p.max_connections_per_pattern) →
      (exec_loop curPid (List.replicate (m + 1) true) p).res = Except.error PErr.transport
      ∧ (exec_loop curPid (List.replicate (m + 1) true) p).leased.length = m + 1
      ∧ (∀ j, (exec_loop curPid (List.replicate (m + 1) true) p).pool.in_use_connections j = [])
      ∧ (∀ j, (exec_loop curPid (List.replicate (m + 1) true) p).pool.available_connections j = []) := by
  intro m
  induction m with
  | zero =>
    intro p hpid hn hidx hav hiu hcap
    have hcap0 : p.created_connections p.pattern_idx < p.max_connections_per_pattern := by
      have := hcap p.pattern_idx hidx
      omega
    rw [List.replicate_succ, List.replicate,
      exec_step_fail curPid p [] hpid (hav _) (hiu _) hcap0]
    exact ⟨rfl, rfl, fun j => (failStepPool_in_use p (hiu _) j).trans (hiu j),
      fun j => hav j⟩
  | succ m ih =>
    intro p hpid hn hidx hav hiu hcap
    have hcap0 : p.created_connections p.pattern_idx < p.max_connections_per_pattern := by
      have := hcap p.pattern_idx hidx
      omega
    rw [List.replicate_succ,
      exec_step_fail curPid p (List.replicate (m + 1) true) hpid (hav _) (hiu _) hcap0]
    have hcap2 : ∀ j, j < (failStepPool p).num_patterns →
        (failStepPool p).created_connections j + (m + 1)
          ≤ (failStepPool p).max_connections_per_pattern := by
      intro j hj
      by_cases hje : j = p.pattern_idx
      · have := hcap p.pattern_idx hidx
        simp only [failStepPool, updf, hje, if_pos]
        omega
      · have := hcap j hj
        simp only [failStepPool, updf, if_neg hje]
        omega
    obtain ⟨h1, h2, h3, h4⟩ :=
      ih (failStepPool p) hpid hn (Nat.mod_lt _ hn) (fun j => hav j)
        (fun j => (failStepPool_in_use p (hiu _) j).trans (hiu j)) hcap2
    refine ⟨h1, ?_, h3, h4⟩
    show (leasedConn p
        :: (exec_loop curPid (List.replicate (m + 1) true) (failStepPool p)).leased).length
      = m + 1 + 1
    rw [List.length_cons, h2]

lemma updf_self (f : Nat → α) (i : Nat) (v : α) : updf f i v i = v := by
  simp [updf]

lemma updf_other (f : Nat → α) {i j : Nat} (v : α) (h : j ≠ i) :
    updf f i v j = f j := by
  simp [updf, h]

lemma get_conn_pop (curPid : Nat) (p : Pool) (c : Conn)
    (hpid : p.pid = curPid)
    (hL : (p.available_connections p.pattern_idx).getLast? = some c) :
    get_connection curPid p =
      (Except.ok c,
       { num_patterns := p.num_patterns
         pid := p.pid
         max_connections_per_pattern := p.max_connections_per_pattern
         pattern_idx := (p.pattern_idx + 1) % p.num_patterns
         created_connections := p.created_connections
         available_connections := updf p.available_connections p.pattern_idx
           ((p.available_connections p.pattern_idx).dropLast)
         in_use_connections := updf p.in_use_connections p.pattern_idx
           (setAdd (p.in_use_connections p.pattern_idx) c)
         next_id := p.next_id }) := by
  unfold get_connection
  rw [checkpid_same curPid p hpid]
  dsimp only
  rw [hL]
  rfl

lemma get_conn_exhausted (curPid : Nat) (p : Pool)
    (hpid : p.pid = curPid)
    (hL : (p.available_connections p.pattern_idx).getLast? = none)
    (hcap : p.max_connections_per_pattern ≤ p.created_connections p.pattern_idx) :
    get_connection curPid p = (Except.error PErr.exhausted, p) := by
  unfold get_connection
  rw [checkpid_same curPid p hpid]
  dsimp only
  rw [hL]
  unfold make_connection
  rw [if_pos hcap]

lemma release_inuse (curPid : Nat) (p : Pool) (c : Conn)
    (hpid : p.pid = curPid)
    (hcpid : c.pid = p.pid)
    (hc : c ∈ p.in_use_connections c.pattern_idx) :
    release curPid c p =
      (Except.ok (),
       { p with
          in_use_connections :=
            updf p.in_use_connections c.pattern_idx
              ((p.in_use_connections c.pattern_idx).erase c)
          available_connections :=
            updf p.available_connections c.pattern_idx
              (p.available_connections c.pattern_idx ++ [c]) }) := by
  unfold release
  rw [checkpid_same curPid p hpid]
  dsimp only
  rw [if_pos hcpid, if_pos hc]

lemma release_notin (curPid : Nat) (p : Pool) (c : Conn)
    (hpid : p.pid = curPid)
    (hcpid : c.pid = p.pid)
    (hnot : c ∉ p.in_use_connections c.pattern_idx) :
    release curPid c p = (Except.error PErr.keyErr, p) := by
  unfold release
  rw [checkpid_same curPid p hpid]
  dsimp only
  rw [if_pos hcpid, if_neg hnot]

lemma purge_avail_only (curPid : Nat) (p : Pool) (c : Conn)
    (hpid : p.pid = curPid)
    (hcpid : c.pid = p.pid)
    (hnotin : c ∉ p.in_use_connections c.pattern_idx)
    (hav : c ∈ p.available_connections c.pattern_idx) :
    purge curPid c p =
      (Except.ok (),
       { p with
          available_connections :=
            updf p.available_connections c.pattern_idx
              ((p.available_connections c.pattern_idx).erase c) }) := by
  unfold purge
  rw [checkpid_same curPid p hpid]
  dsimp only
  rw [if_pos hcpid, if_neg hnotin, if_pos hav]

lemma nodup_append_singleton {l : List Conn} {c : Conn}
    (hn : l.Nodup) (hc : c ∉ l) : (l ++ [c]).Nodup := by
  rw [List.nodup_append]
  exact ⟨hn, List.nodup_singleton c, by simpa [List.disjoint_singleton] using hc⟩

lemma WF_get (p : Pool) (curPid : Nat) (d : Conn)
    (hpid : p.pid = curPid) (hw : WF p)
    (h : (get_connection curPid p).1 = Except.ok d) :
    WF (get_connection curPid p).2
    ∧ d ∈ (get_connection curPid p).2.in_use_connections d.pattern_idx
    ∧ d ∉ (get_connection curPid p).2.available_connections d.pattern_idx
    ∧ (get_connection curPid p).2.num_patterns = p.num_patterns
    ∧ (get_connection curPid p).2.max_connections_per_pattern
      = p.max_connections_per_pattern := by
  cases hL : (p.available_connections p.pattern_idx).getLast? with
  | some c =>
    rw [get_conn_pop curPid p c hpid hL] at h ⊢
    dsimp only at h ⊢
    have hd : c = d := by simpa using h
    subst hd
    have hmemc : c ∈ p.available_connections p.pattern_idx :=
      List.mem_of_mem_getLast? hL
    obtain ⟨hcp, hcpid, hcid⟩ := hw.avail_at _ _ hmemc
    have hdecomp : p.available_connections p.pattern_idx
        = (p.available_connections p.pattern_idx).dropLast ++ [c] :=
      (List.dropLast_append_getLast? c hL).symm
    have hnd2 : ((p.available_connections p.pattern_idx).dropLast ++ [c]).Nodup :=
      hdecomp ▸ hw.nodup_avail p.pattern_idx
    rw [List.nodup_append] at hnd2
    have hcnot : c ∉ (p.available_connections p.pattern_idx).dropLast :=
      fun hm => hnd2.2.2 hm (by simp)
    have hcnotin2 : c ∉ p.in_use_connections p.pattern_idx := by
      intro hm
      exact hw.not_both c ⟨by rw [hcp]; exact hmemc, by rw [hcp]; exact hm⟩
    have hsetAdd : setAdd (p.in_use_connections p.pattern_idx) c
        = p.in_use_connections p.pattern_idx ++ [c] := by
      simp [setAdd, hcnotin2]
    refine ⟨⟨hw.n_pos, Nat.mod_lt _ hw.n_pos, ?_, ?_, ?_, ?_, ?_, hw.cap_ok⟩,
      ?_, ?_, rfl, rfl⟩
    · intro i e he
      dsimp only at he ⊢
      by_cases hi : i = p.pattern_idx
      · subst hi
        rw [updf_self] at he
        exact hw.avail_at _ _ (by rw [hdecomp]; exact List.mem_append_left _ he)
      · rw [updf_other _ _ hi] at he
        exact hw.avail_at _ _ he
    · intro i e he
      dsimp only at he ⊢
      by_cases hi : i = p.pattern_idx
      · subst hi
        rw [updf_self, hsetAdd] at he
        rcases List.mem_append.mp he with h1 | h1
        · exact hw.inuse_at _ _ h1
        · have he2 : e = c := by simpa using h1
          subst he2
          exact ⟨hcp, hcpid, hcid⟩
      · rw [updf_other _ _ hi] at he
        exact hw.inuse_at _ _ he
    · intro e he
      obtain ⟨hea, heu⟩ := he
      dsimp only at hea heu
      by_cases hi : e.pattern_idx = p.pattern_idx
      · rw [hi, updf_self] at hea heu
        rw [hsetAdd] at heu
        rcases List.mem_append.mp heu with h1 | h1
        · refine hw.not_both e ⟨?_, ?_⟩
          · rw [hi, hdecomp]
            exact List.mem_append_left _ hea
          · rw [hi]
            exact h1
        · have he2 : e = c := by simpa using h1
          subst he2
          exact hcnot hea
      · rw [updf_other _ _ hi] at hea heu
        exact hw.not_both e ⟨hea, heu⟩
    · intro i
      dsimp only
      by_cases hi : i = p.pattern_idx
      · subst hi
        rw [updf_self]
        exact (List.dropLast_sublist _).nodup (hw.nodup_avail _)
      · rw [updf_other _ _ hi]
        exact hw.nodup_avail i
    · intro i
      dsimp only
      by_cases hi : i = p.pattern_idx
      · subst hi
        rw [updf_self, hsetAdd]
        exact nodup_append_singleton (hw.nodup_inuse _) hcnotin2
      · rw [updf_other _ _ hi]
        exact hw.nodup_inuse i
    · dsimp only
      rw [hcp, updf_self, hsetAdd]
      exact List.mem_append_right _ (by simp)
    · dsimp only
      rw [hcp, updf_self]
      exact hcnot
  | none =>
    by_cases hcap : p.max_connections_per_pattern ≤ p.created_connections p.pattern_idx
    · rw [get_conn_exhausted curPid p hpid hL hcap] at h
      simp at h
    · have havnil : p.available_connections p.pattern_idx = [] :=
        List.getLast?_eq_none_iff.mp hL
      have hlt := Nat.lt_of_not_le hcap
      rw [get_conn_make curPid p hpid havnil hlt] at h ⊢
      dsimp only at h ⊢
      have hd : ({ id := p.next_id, pattern_idx := p.pattern_idx, pid := p.pid } : Conn)
          = d := by simpa using h
      subst hd
      have hc0nin : ∀ i,
          ({ id := p.next_id, pattern_idx := p.pattern_idx, pid := p.pid } : Conn)
            ∉ p.in_use_connections i :=
        fun i hm => Nat.lt_irrefl p.next_id (hw.inuse_at i _ hm).2.2
      have hc0nav : ∀ i,
          ({ id := p.next_id, pattern_idx := p.pattern_idx, pid := p.pid } : Conn)
            ∉ p.available_connections i :=
        fun i hm => Nat.lt_irrefl p.next_id (hw.avail_at i _ hm).2.2
      have hsetAdd : setAdd (p.in_use_connections p.pattern_idx)
            { id := p.next_id, pattern_idx := p.pattern_idx, pid := p.pid }
          = p.in_use_connections p.pattern_idx
            ++ [{ id := p.next_id, pattern_idx := p.pattern_idx, pid := p.pid }] := by
        simp [setAdd, hc0nin p.pattern_idx]
      refine ⟨⟨hw.n_pos, Nat.mod_lt _ hw.n_pos, ?_, ?_, ?_, hw.nodup_avail, ?_, ?_⟩,
        ?_, ?_, rfl, rfl⟩
      · intro i e he
        dsimp only at he ⊢
        obtain ⟨h1, h2, h3⟩ := hw.avail_at i e he
        exact ⟨h1, h2, Nat.lt_succ_of_lt h3⟩
      · intro i e he
        dsimp only at he ⊢
        by_cases hi : i = p.pattern_idx
        · subst hi
          rw [updf_self, hsetAdd] at he
          rcases List.mem_append.mp he with h1 | h1
          · obtain ⟨h2, h3, h4⟩ := hw.inuse_at _ _ h1
            exact ⟨h2, h3, Nat.lt_succ_of_lt h4⟩
          · have he2 : e = { id := p.next_id, pattern_idx := p.pattern_idx, pid := p.pid } := by
              simpa using h1
            subst he2
            exact ⟨rfl, rfl, Nat.lt_succ_self _⟩
        · rw [updf_other _ _ hi] at he
          obtain ⟨h2, h3, h4⟩ := hw.inuse_at _ _ he
          exact ⟨h2, h3, Nat.lt_succ_of_lt h4⟩
      · intro e he
        obtain ⟨hea, heu⟩ := he
        dsimp only at hea heu
        by_cases hi : e.pattern_idx = p.pattern_idx
        · rw [hi, updf_self] at heu
          rw [hsetAdd] at heu
          rcases List.mem_append.mp heu with h1 | h1
          · exact hw.not_both e ⟨hea, by rw [hi]; exact h1⟩
          · have he2 : e = { id := p.next_id, pattern_idx := p.pattern_idx, pid := p.pid } := by
              simpa using h1
            subst he2
            exact hc0nav _ hea
        · rw [updf_other _ _ hi] at heu
          exact hw.not_both e ⟨hea, heu⟩
      · intro i
        dsimp only
        by_cases hi : i = p.pattern_idx
        · subst hi
          rw [updf_self, hsetAdd]
          exact nodup_append_singleton (hw.nodup_inuse _) (hc0nin _)
        · rw [updf_other _ _ hi]
          exact hw.nodup_inuse i
      · intro i hi2
        dsimp only at hi2 ⊢
        by_cases hi : i = p.pattern_idx
        · subst hi
          rw [updf_self]
          exact Nat.succ_le_of_lt hlt
        · rw [updf_other _ _ hi]
          exact hw.cap_ok i hi2
      · dsimp only
        rw [updf_self, hsetAdd]
        exact List.mem_append_right _ (by simp)
      · dsimp only
        exact hc0nav _

lemma WF_release (p : Pool) (curPid : Nat) (c : Conn)
    (hpid : p.pid = curPid) (hw : WF p)
    (hc : c ∈ p.in_use_connections c.pattern_idx) :
    (release curPid c p).1 = Except.ok ()
    ∧ WF (release curPid c p).2
    ∧ c ∈ (release curPid c p).2.available_connections c.pattern_idx
    ∧ c ∉ (release curPid c p).2.in_use_connections c.pattern_idx := by
  obtain ⟨_, hcpid, hcid⟩ := hw.inuse_at _ _ hc
  rw [release_inuse curPid p c hpid hcpid hc]
  dsimp only
  have hcnav : c ∉ p.available_connections c.pattern_idx :=
    fun hm => hw.not_both c ⟨hm, hc⟩
  refine ⟨rfl, ⟨hw.n_pos, hw.idx_lt, ?_, ?_, ?_, ?_, ?_, hw.cap_ok⟩, ?_, ?_⟩
  · intro i e he
    dsimp only at he ⊢
    by_cases hi : i = c.pattern_idx
    · subst hi
      rw [updf_self] at he
      rcases List.mem_append.mp he with h1 | h1
      · exact hw.avail_at _ _ h1
      · have he2 : e = c := by simpa using h1
        subst he2
        exact ⟨rfl, hcpid, hcid⟩
    · rw [updf_other _ _ hi] at he
      exact hw.avail_at _ _ he
  · intro i e he
    dsimp only at he ⊢
    by_cases hi : i = c.pattern_idx
    · subst hi
      rw [updf_self] at he
      exact hw.inuse_at _ _ (List.mem_of_mem_erase he)
    · rw [updf_other _ _ hi] at he
      exact hw.inuse_at _ _ he
  · intro e he
    obtain ⟨hea, heu⟩ := he
    dsimp only at hea heu
    by_cases hi : e.pattern_idx = c.pattern_idx
    · rw [hi, updf_self] at hea heu
      by_cases hec : e = c
      · subst hec
        exact (hw.nodup_inuse _).not_mem_erase heu
      · rcases List.mem_append.mp hea with h1 | h1
        · refine hw.not_both e ⟨?_, ?_⟩
          · rw [hi]
            exact h1
          · rw [hi]
            exact List.mem_of_mem_erase heu
        · exact hec (by simpa using h1)
    · rw [updf_other _ _ hi] at hea heu
      exact hw.not_both e ⟨hea, heu⟩
  · intro i
    dsimp only
    by_cases hi : i = c.pattern_idx
    · subst hi
      rw [updf_self]
      exact nodup_append_singleton (hw.nodup_avail _) hcnav
    · rw [updf_other _ _ hi]
      exact hw.nodup_avail i
  · intro i
    dsimp only
    by_cases hi : i = c.pattern_idx
    · subst hi
      rw [updf_self]
      exact (hw.nodup_inuse _).erase c
    · rw [updf_other _ _ hi]
      exact hw.nodup_inuse i
  · dsimp only
    rw [updf_self]
    exact List.mem_append_right _ (by simp)
  · dsimp only
    rw [updf_self]
    exact (hw.nodup_inuse _).not_mem_erase

lemma WF_purge (p : Pool) (curPid : Nat) (c : Conn)
    (hpid : p.pid = curPid) (hw : WF p)
    (hc : c ∈ p.in_use_connections c.pattern_idx
      ∨ c ∈ p.available_connections c.pattern_idx) :
    (purge curPid c p).1 = Except.ok ()
    ∧ WF (purge curPid c p).2
    ∧ c ∉ (purge curPid c p).2.in_use_connections c.pattern_idx
    ∧ c ∉ (purge curPid c p).2.available_connections c.pattern_idx
    ∧ (release curPid c (purge curPid c p).2).1 = Except.error PErr.keyErr
    ∧ (release curPid c (purge curPid c p).2).2 = (purge curPid c p).2 := by
  by_cases hin : c ∈ p.in_use_connections c.pattern_idx
  · obtain ⟨_, hcpid, hcid⟩ := hw.inuse_at _ _ hin
    rw [purge_only_inuse curPid p c hpid hcpid hin]
    dsimp only
    have hcnav : c ∉ p.available_connections c.pattern_idx :=
      fun hm => hw.not_both c ⟨hm, hin⟩
    have hnotin2 : c ∉ updf p.in_use_connections c.pattern_idx
        ((p.in_use_connections c.pattern_idx).erase c) c.pattern_idx := by
      rw [updf_self]
      exact (hw.nodup_inuse _).not_mem_erase
    have hrel := release_notin curPid
      { p with
          in_use_connections :=
            updf p.in_use_connections c.pattern_idx
              ((p.in_use_connections c.pattern_idx).erase c) } c hpid hcpid hnotin2
    refine ⟨rfl, ⟨hw.n_pos, hw.idx_lt, hw.avail_at, ?_, ?_, hw.nodup_avail, ?_,
      hw.cap_ok⟩, hnotin2, hcnav, ?_, ?_⟩
    · intro i e he
      dsimp only at he ⊢
      by_cases hi : i = c.pattern_idx
      · subst hi
        rw [updf_self] at he
        exact hw.inuse_at _ _ (List.mem_of_mem_erase he)
      · rw [updf_other _ _ hi] at he
        exact hw.inuse_at _ _ he
    · intro e he
      obtain ⟨hea, heu⟩ := he
      dsimp only at hea heu
      by_cases hi : e.pattern_idx = c.pattern_idx
      · rw [hi, updf_self] at heu
        refine hw.not_both e ⟨hea, ?_⟩
        rw [hi]
        exact List.mem_of_mem_erase heu
      · rw [updf_other _ _ hi] at heu
        exact hw.not_both e ⟨hea, heu⟩
    · intro i
      dsimp only
      by_cases hi : i = c.pattern_idx
      · subst hi
        rw [updf_self]
        exact (hw.nodup_inuse _).erase c
      · rw [updf_other _ _ hi]
        exact hw.nodup_inuse i
    · rw [hrel]
    · rw [hrel]
  · have hav : c ∈ p.available_connections c.pattern_idx := by
      rcases hc with h1 | h1
      · exact absurd h1 hin
      · exact h1
    obtain ⟨_, hcpid, hcid⟩ := hw.avail_at _ _ hav
    rw [purge_avail_only curPid p c hpid hcpid hin hav]
    dsimp only
    have hnotav2 : c ∉ updf p.available_connections c.pattern_idx
        ((p.available_connections c.pattern_idx).erase c) c.pattern_idx := by
      rw [updf_self]
      exact (hw.nodup_avail _).not_mem_erase
    have hrel := release_notin curPid
      { p with
          available_connections :=
            updf p.available_connections c.pattern_idx
              ((p.available_connections c.pattern_idx).erase c) } c hpid hcpid hin
    refine ⟨rfl, ⟨hw.n_pos, hw.idx_lt, ?_, hw.inuse_at, ?_, ?_, hw.nodup_inuse,
      hw.cap_ok⟩, hin, hnotav2, ?_, ?_⟩
    · intro i e he
      dsimp only at he ⊢
      by_cases hi : i = c.pattern_idx
      · subst hi
        rw [updf_self] at he
        exact hw.avail_at _ _ (List.mem_of_mem_erase he)
      · rw [updf_other _ _ hi] at he
        exact hw.avail_at _ _ he
    · intro e he
      obtain ⟨hea, heu⟩ := he
      dsimp only at hea heu
      by_cases hi : e.pattern_idx = c.pattern_idx
      · rw [hi, updf_self] at hea
        refine hw.not_both e ⟨?_, heu⟩
        rw [hi]
        exact List.mem_of_mem_erase hea
      · rw [updf_other _ _ hi] at hea
        exact hw.not_both e ⟨hea, heu⟩
    · intro i
      dsimp only
      by_cases hi : i = c.pattern_idx
      · subst hi
        rw [updf_self]
        exact (hw.nodup_avail _).erase c
      · rw [updf_other _ _ hi]
        exact hw.nodup_avail i
    · rw [hrel]
    · rw [hrel]

/-- C6: pool-lifecycle invariants. Starting from a well-formed pool, a
successful lease keeps the pool well-formed with the leased connection
in exactly the in-use set of its endpoint and no created count above
the cap; releasing an in-use connection moves it to exactly the
available list; purging a connection removes it from both sets of its
endpoint, and a purged connection can never be returned to rotation —
a subsequent release raises `KeyError` and leaves the pool unchanged. -/
theorem c6_lifecycle (p : Pool) (curPid j : Nat) (c d : Conn)
    (hpid : p.pid = curPid) (hw : WF p) :
    ((get_connection curPid p).1 = Except.ok d →
      WF (get_connection curPid p).2
      ∧ d ∈ (get_connection curPid p).2.in_use_connections d.pattern_idx
      ∧ d ∉ (get_connection curPid p).2.available_connections d.pattern_idx
      ∧ (j < p.num_patterns →
          (get_connection curPid p).2.created_connections j
            ≤ p.max_connections_per_pattern))
    ∧ (c ∈ p.in_use_connections c.pattern_idx →
      (release curPid c p).1 = Except.ok ()
      ∧ WF (release curPid c p).2
      ∧ c ∈ (release curPid c p).2.available_connections c.pattern_idx
      ∧ c ∉ (release curPid c p).2.in_use_connections c.pattern_idx)
    ∧ ((c ∈ p.in_use_connections c.pattern_idx
        ∨ c ∈ p.available_connections c.pattern_idx) →
      (purge curPid c p).1 = Except.ok ()
      ∧ WF (purge curPid c p).2
      ∧ c ∉ (purge curPid c p).2.in_use_connections c.pattern_idx
      ∧ c ∉ (purge curPid c p).2.available_connections c.pattern_idx
      ∧ (release curPid c (purge curPid c p).2).1 = Except.error PErr.keyErr
      ∧ (release curPid c (purge curPid c p).2).2 = (purge curPid c p).2) := by
  refine ⟨?_, fun hc => WF_release p curPid c hpid hw hc,
    fun hc => WF_purge p curPid c hpid hw hc⟩
  intro h
  obtain ⟨hwf, hmem, hnot, hnum, hmax⟩ := WF_get p curPid d hpid hw h
  refine ⟨hwf, hmem, hnot, fun hj => ?_⟩
  have hcap := hwf.cap_ok j (by rw [hnum]; exact hj)
  rw [hmax] at hcap
  exact hcap

lemma demoWF_wf : WF demoWF := by
  refine ⟨by decide, by decide, ?_, ?_, ?_, ?_, ?_, ?_⟩
  · intro i c h
    simp [demoWF] at h
  · intro i c h
    dsimp [demoWF] at h
    by_cases hi : i = 0
    · rw [if_pos hi] at h
      have hc : c = { id := 0, pattern_idx := 0, pid := 7 } := by simpa using h
      subst hc
      exact ⟨hi.symm, rfl, by decide⟩
    · rw [if_neg hi] at h
      simp at h
  · intro c hc
    obtain ⟨h1, _⟩ := hc
    simp [demoWF] at h1
  · intro i
    dsimp [demoWF]
    simp
  · intro i
    dsimp [demoWF]
    split <;> simp
  · intro i hi
    dsimp [demoWF]
    split <;> decide

/-- Witness for C6: the lifecycle theorem instantiated on `demoWF`,
leasing the fresh connection of identity 1 and releasing/purging the
in-use connection of identity 0. -/
theorem c6_lifecycle_witness :
    ((get_connection 7 demoWF).1 = Except.ok { id := 1, pattern_idx := 0, pid := 7 } →
      WF (get_connection 7 demoWF).2
      ∧ { id := 1, pattern_idx := 0, pid := 7 }
          ∈ (get_connection 7 demoWF).2.in_use_connections 0
      ∧ { id := 1, pattern_idx := 0, pid := 7 }
          ∉ (get_connection 7 demoWF).2.available_connections 0
      ∧ (0 < demoWF.num_patterns →
          (get_connection 7 demoWF).2.created_connections 0
            ≤ demoWF.max_connections_per_pattern))
    ∧ ({ id := 0, pattern_idx := 0, pid := 7 } ∈ demoWF.in_use_connections 0 →
      (release 7 { id := 0, pattern_idx := 0, pid := 7 } demoWF).1 = Except.ok ()
      ∧ WF (release 7 { id := 0, pattern_idx := 0, pid := 7 } demoWF).2
      ∧ { id := 0, pattern_idx := 0, pid := 7 }
          ∈ (release 7 { id := 0, pattern_idx := 0, pid := 7 } demoWF).2.available_connections 0
      ∧ { id := 0, pattern_idx := 0, pid := 7 }
          ∉ (release 7 { id := 0, pattern_idx := 0, pid := 7 } demoWF).2.in_use_connections 0)
    ∧ (({ id := 0, pattern_idx := 0, pid := 7 } ∈ demoWF.in_use_connections 0
        ∨ { id := 0, pattern_idx := 0, pid := 7 } ∈ demoWF.available_connections 0) →
      (purge 7 { id := 0, pattern_idx := 0, pid := 7 } demoWF).1 = Except.ok ()
      ∧ WF (purge 7 { id := 0, pattern_idx := 0, pid := 7 } demoWF).2
      ∧ { id := 0, pattern_idx := 0, pid := 7 }
          ∉ (purge 7 { id := 0, pattern_idx := 0, pid := 7 } demoWF).2.in_use_connections 0
      ∧ { id := 0, pattern_idx := 0, pid := 7 }
          ∉ (purge 7 { id := 0, pattern_idx := 0, pid := 7 } demoWF).2.available_connections 0
      ∧ (release 7 { id := 0, pattern_idx := 0, pid := 7 }
          (purge 7 { id := 0, pattern_idx := 0, pid := 7 } demoWF).2).1
        = Except.error PErr.keyErr
      ∧ (release 7 { id := 0, pattern_idx := 0, pid := 7 }
          (purge 7 { id := 0, pattern_idx := 0, pid := 7 } demoWF).2).2
        = (purge 7 { id := 0, pattern_idx := 0, pid := 7 } demoWF).2) :=
  c6_lifecycle demoWF 7 0 { id := 0, pattern_idx := 0, pid := 7 }
    { id := 1, pattern_idx := 0, pid := 7 } rfl demoWF_wf

lemma exec_step_succ (curPid : Nat) (p : Pool) (rest : List Bool)
    (hpid : p.pid = curPid)
    (hav : p.available_connections p.pattern_idx = [])
    (hiu : p.in_use_connections p.pattern_idx = [])
    (hcap : p.created_connections p.pattern_idx < p.max_connections_per_pattern) :
    (exec_loop curPid (false :: rest) p).res = Except.ok (some (leasedConn p))
    ∧ (exec_loop curPid (false :: rest) p).leased = [leasedConn p]
    ∧ leasedConn p ∈ (exec_loop curPid (false :: rest) p).pool.available_connections
        (leasedConn p).pattern_idx
    ∧ leasedConn p ∉ (exec_loop curPid (false :: rest) p).pool.in_use_connections
        (leasedConn p).pattern_idx := by
  have hgc := get_conn_make curPid p hpid hav hcap
  rw [exec_loop, hgc]
  simp only [leasedConn]
  rw [if_neg (by simp : ¬ (false = true))]
  rw [release_inuse curPid]
  · dsimp only
    refine ⟨rfl, rfl, ?_, ?_⟩
    · dsimp only
      rw [updf_self]
      exact List.mem_append_right _ (by simp)
    · dsimp only
      rw [updf_self]
      simp [updf, setAdd, hiu]
  · exact hpid
  · rfl
  · simp [updf, setAdd, hiu]

lemma exec_fail_succ (curPid : Nat) :
    ∀ (k : Nat) (p : Pool) (rest : List Bool),
      p.pid = curPid →
      0 < p.num_patterns →
      p.pattern_idx < p.num_patterns →
      (∀ j, p.available_connections j = []) →
      (∀ j, p.in_use_connections j = []) →
      (∀ j, j < p.num_patterns →
          p.created_connections j + (k + 1) ≤ p.max_connections_per_pattern) →
      (exec_loop curPid (List.replicate k true ++ false :: rest) p).res
        = Except.ok (some (leasedConn (failStepN k p)))
      ∧ (exec_loop curPid (List.replicate k true ++ false :: rest) p).leased.length
        = k + 1
      ∧ leasedConn (failStepN k p)
          ∈ (exec_loop curPid (List.replicate k true ++ false :: rest)
              p).pool.available_connections (leasedConn (failStepN k p)).pattern_idx
      ∧ leasedConn (failStepN k p)
          ∉ (exec_loop curPid (List.replicate k true ++ false :: rest)
              p).pool.in_use_connections (leasedConn (failStepN k p)).pattern_idx := by
  intro k
  induction k with
  | zero =>
    intro p rest hpid hn hidx hav hiu hcap
    have hcap0 : p.created_connections p.pattern_idx < p.max_connections_per_pattern := by
      have := hcap p.pattern_idx hidx
      omega
    rw [List.replicate_zero, List.nil_append]
    obtain ⟨h1, h2, h3, h4⟩ := exec_step_succ curPid p rest hpid (hav _) (hiu _) hcap0
    exact ⟨h1, by rw [h2]; rfl, h3, h4⟩
  | succ k ih =>
    intro p rest hpid hn hidx hav hiu hcap
    have hcap0 : p.created_connections p.pattern_idx < p.max_connections_per_pattern := by
      have := hcap p.pattern_idx hidx
      omega
    rw [List.replicate_succ, List.cons_append,
      exec_step_fail curPid p (List.replicate k true ++ false :: rest) hpid
        (hav _) (hiu _) hcap0]
    rw [if_neg (by simp : ¬ ((List.replicate k true ++ false :: rest).isEmpty = true))]
    have hcap2 : ∀ j, j < (failStepPool p).num_patterns →
        (failStepPool p).created_connections j + (k + 1)
          ≤ (failStepPool p).max_connections_per_pattern := by
      intro j hj
      by_cases hje : j = p.pattern_idx
      · have := hcap p.pattern_idx hidx
        simp only [failStepPool, updf, hje, if_pos]
        omega
      · have := hcap j hj
        simp only [failStepPool, updf, if_neg hje]
        omega
    obtain ⟨h1, h2, h3, h4⟩ :=
      ih (failStepPool p) rest hpid hn (Nat.mod_lt _ hn) (fun j => hav j)
        (fun j => (failStepPool_in_use p (hiu _) j).trans (hiu j)) hcap2
    refine ⟨h1, ?_, h3, h4⟩
    show (leasedConn p
        :: (exec_loop curPid (List.replicate k true ++ false :: rest)
              (failStepPool p)).leased).length
      = k + 1 + 1
    rw [List.length_cons, h2]

/-- C4: with the attempt budget set by the shipper to the number of
endpoints, every attempt leases a connection and the number of leases
never exceeds the budget. With every send/parse failing, the loop
purges each failed connection and re-raises the transport failure after
exactly that many attempts, leaving every in-use set (and every
available list) empty — every leased connection was purged. When the
first k attempts fail and attempts remain, the loop retries: the
(k+1)-st attempt leases a fresh connection, and on its success the loop
returns that attempt's parsed result and releases the connection —
afterwards it sits in the available list of its endpoint, not in the
in-use set. -/
theorem c4_exhaustion (p : Pool) (curPid i : Nat) (fails : List Bool)
    (k : Nat) (rest2 : List Bool)
    (hpid : p.pid = curPid)
    (hn : 0 < p.num_patterns)
    (hidx : p.pattern_idx < p.num_patterns)
    (hav : ∀ j, p.available_connections j = [])
    (hiu : ∀ j, p.in_use_connections j = [])
    (hcap : ∀ j, j < p.num_patterns →
        p.created_connections j + p.num_patterns ≤ p.max_connections_per_pattern)
    (hk : k < p.num_patterns) :
    (exec_loop curPid (List.replicate (execution_attempts_for p) true) p).res
      = Except.error PErr.transport
    ∧ (exec_loop curPid (List.replicate (execution_attempts_for p) true) p).leased.length
      = execution_attempts_for p
    ∧ (exec_loop curPid (List.replicate (execution_attempts_for p) true) p).pool.in_use_connections i
      = []
    ∧ (exec_loop curPid (List.replicate (execution_attempts_for p) true) p).pool.available_connections i
      = []
    ∧ (exec_loop curPid fails p).leased.length ≤ fails.length
    ∧ (exec_loop curPid (List.replicate k true ++ false :: rest2) p).res
      = Except.ok (some (leasedConn (failStepN k p)))
    ∧ (exec_loop curPid (List.replicate k true ++ false :: rest2) p).leased.length
      = k + 1
    ∧ leasedConn (failStepN k p)
        ∈ (exec_loop curPid (List.replicate k true ++ false :: rest2)
            p).pool.available_connections (leasedConn (failStepN k p)).pattern_idx
    ∧ leasedConn (failStepN k p)
        ∉ (exec_loop curPid (List.replicate k true ++ false :: rest2)
            p).pool.in_use_connections (leasedConn (failStepN k p)).pattern_idx := by
  obtain ⟨m, hm⟩ : ∃ m, p.num_patterns = m + 1 :=
    ⟨p.num_patterns - 1, by omega⟩
  have hcap2 : ∀ j, j < p.num_patterns →
      p.created_connections j + (m + 1) ≤ p.max_connections_per_pattern := by
    intro j hj
    have h5 := hcap j hj
    omega
  have hcap3 : ∀ j, j < p.num_patterns →
      p.created_connections j + (k + 1) ≤ p.max_connections_per_pattern := by
    intro j hj
    have h5 := hcap j hj
    omega
  obtain ⟨h1, h2, h3, h4⟩ := exec_all_fail curPid m p hpid hn hidx hav hiu hcap2
  obtain ⟨h5, h6, h7, h8⟩ := exec_fail_succ curPid k p rest2 hpid hn hidx hav hiu hcap3
  have hN : execution_attempts_for p = m + 1 := hm
  rw [hN]
  exact ⟨h1, h2, h3 i, h4 i, exec_leased_le curPid fails p, h5, h6, h7, h8⟩

/-- Witness for C4: a fresh two-endpoint pool with the default cap in
process 7; the all-fail schedule exhausts both attempts, and the
schedule failing once then succeeding returns and releases the second
attempt's connection. -/
theorem c4_exhaustion_witness :
    (exec_loop 7 (List.replicate (execution_attempts_for (mkPool 2 (2 ^ 31) 7)) true)
        (mkPool 2 (2 ^ 31) 7)).res = Except.error PErr.transport
    ∧ (exec_loop 7 (List.replicate (execution_attempts_for (mkPool 2 (2 ^ 31) 7)) true)
        (mkPool 2 (2 ^ 31) 7)).leased.length = execution_attempts_for (mkPool 2 (2 ^ 31) 7)
    ∧ (exec_loop 7 (List.replicate (execution_attempts_for (mkPool 2 (2 ^ 31) 7)) true)
        (mkPool 2 (2 ^ 31) 7)).pool.in_use_connections 0 = []
    ∧ (exec_loop 7 (List.replicate (execution_attempts_for (mkPool 2 (2 ^ 31) 7)) true)
        (mkPool 2 (2 ^ 31) 7)).pool.available_connections 0 = []
    ∧ (exec_loop 7 [true] (mkPool 2 (2 ^ 31) 7)).leased.length ≤ [true].length
    ∧ (exec_loop 7 (List.replicate 1 true ++ false :: []) (mkPool 2 (2 ^ 31) 7)).res
      = Except.ok (some (leasedConn (failStepN 1 (mkPool 2 (2 ^ 31) 7))))
    ∧ (exec_loop 7 (List.replicate 1 true ++ false :: []) (mkPool 2 (2 ^ 31) 7)).leased.length
      = 1 + 1
    ∧ leasedConn (failStepN 1 (mkPool 2 (2 ^ 31) 7))
        ∈ (exec_loop 7 (List.replicate 1 true ++ false :: [])
            (mkPool 2 (2 ^ 31) 7)).pool.available_connections
              (leasedConn (failStepN 1 (mkPool 2 (2 ^ 31) 7))).pattern_idx
    ∧ leasedConn (failStepN 1 (mkPool 2 (2 ^ 31) 7))
        ∉ (exec_loop 7 (List.replicate 1 true ++ false :: [])
            (mkPool 2 (2 ^ 31) 7)).pool.in_use_connections
              (leasedConn (failStepN 1 (mkPool 2 (2 ^ 31) 7))).pattern_idx :=
  c4_exhaustion (mkPool 2 (2 ^ 31) 7) 7 0 [true] 1 [] rfl (by decide) (by decide)
    (fun _ => rfl) (fun _ => rfl) (fun _ _ => show 0 + 2 ≤ 2 ^ 31 by decide) (by decide)
